import Mathlib

/-!
Verification of the Fundis booking / M-Pesa payment core.

Shallow embedding of the repository's data model and operations:
  - app/utils.py          : normalize_phone_number
  - app/models.py         : enums and row types for Booking / Payment
  - app/routes_payment.py : initiate_booking_payment, mpesa_callback
  - app/services_payment/mpesa_service.py :
        get_mpesa_access_token, initiate_stk_push, process_mpesa_callback
  - app/routes_main.py    : confirm_booking, reject_booking,
        cancel_booking_client, mark_booking_completed

Database rows are lists of records; SQLAlchemy session mutation of a row
found by a query is modelled as replacing the first matching row; external
effects (token fetch, STK push HTTP POST) are recorded in an explicit call
trace, with the gateway's answers supplied by an environment record.
-/

namespace Fundis

/-- Role enum from app/models.py (UserRole). -/
inductive UserRole
  | client
  | freelancer
  | admin
deriving DecidableEq, Repr

/-- Booking status enum from app/models.py (BookingStatus). -/
inductive BookingStatus
  | pending
  | confirmed
  | cancelled_client
  | cancelled_freelancer
  | completed
  | payment_pending
  | payment_failed
  | disputed
deriving DecidableEq, Repr

/-- Payment status enum from app/models.py (PaymentStatus). -/
inductive PaymentStatus
  | pending
  | successful
  | failed
  | refunded
deriving DecidableEq, Repr

/-! ## Phone normalization (app/utils.py)

`normalize_phone_number` strips the input, matches it against the regex
`^(?:\+254|0)?(7\d{8}|1\d{8})$` and, on a match, returns `+254` followed by
the capturing group.  The optional prefix alternatives `+254` and `0` are
mutually exclusive with each other and with the first character of the
capturing group (`7` or `1`), so the backtracking regex is equivalent to the
deterministic strip-then-match function below. -/

/-- Python's `str.strip()`: drop whitespace from both ends. -/
def pyStrip (cs : List Char) : List Char :=
  ((cs.dropWhile Char.isWhitespace).reverse.dropWhile Char.isWhitespace).reverse

/-- The capturing group `(7\d{8}|1\d{8})` anchored at both ends. -/
def phoneGroup (cs : List Char) : Option (List Char) :=
  match cs with
  | [] => none
  | c :: rest =>
    if (c = '7' ∨ c = '1') ∧ rest.length = 8 ∧ rest.all Char.isDigit then
      some (c :: rest)
    else
      none

/-- The optional leading `(?:\+254|0)?` of the regex. -/
def stripCountryCode (cs : List Char) : List Char :=
  if cs.take 4 = ['+', '2', '5', '4'] then cs.drop 4
  else if cs.take 1 = ['0'] then cs.drop 1
  else cs

/-- app/utils.py `normalize_phone_number`: canonicalize a Kenyan phone
number to `+2547xxxxxxxx` / `+2541xxxxxxxx`, `none` when unrecognized. -/
def normalize_phone_number (cs : List Char) : Option (List Char) :=
  if cs = [] then none
  else
    match phoneGroup (stripCountryCode (pyStrip cs)) with
    | some g => some ('+' :: '2' :: '5' :: '4' :: g)
    | none => none

lemma not_whitespace_of_isDigit (c : Char) (h : c.isDigit = true) :
    c.isWhitespace = false := by
  by_contra hw
  rw [Bool.not_eq_false] at hw
  simp only [Char.isWhitespace, Bool.or_eq_true, decide_eq_true_eq] at hw
  rcases hw with ((rfl | rfl) | rfl) | rfl <;> simp [Char.isDigit] at h

lemma dropWhile_eq_self_of_not (p : Char → Bool) (l : List Char)
    (h : ∀ x ∈ l, p x = false) : l.dropWhile p = l := by
  cases l with
  | nil => rfl
  | cons a t =>
    rw [List.dropWhile_cons, h a (List.mem_cons_self a t)]
    simp

lemma pyStrip_eq_self (l : List Char) (h : ∀ x ∈ l, x.isWhitespace = false) :
    pyStrip l = l := by
  unfold pyStrip
  rw [dropWhile_eq_self_of_not _ _ h,
      dropWhile_eq_self_of_not _ _ (fun x hx => h x (List.mem_reverse.mp hx)),
      List.reverse_reverse]

lemma phoneGroup_eq_some {cs g : List Char} (h : phoneGroup cs = some g) :
    g = cs ∧ ∃ c rest, cs = c :: rest ∧ (c = '7' ∨ c = '1') ∧
      rest.length = 8 ∧ rest.all Char.isDigit = true := by
  cases cs with
  | nil => simp [phoneGroup] at h
  | cons c rest =>
    by_cases hcond : (c = '7' ∨ c = '1') ∧ rest.length = 8 ∧
        rest.all Char.isDigit = true
    · simp only [phoneGroup, if_pos hcond] at h
      cases h
      exact ⟨rfl, c, rest, rfl, hcond.1, hcond.2.1, hcond.2.2⟩
    · simp only [phoneGroup, if_neg hcond] at h
      exact Option.noConfusion h

/-- C10: every canonical output of the normalizer is a fixed point of the
normalizer. -/
theorem normalize_phone_number_idempotent (cs c : List Char)
    (h : normalize_phone_number cs = some c) :
    normalize_phone_number c = some c := by
  unfold normalize_phone_number at h
  split at h
  · cases h
  · rename_i hne
    revert h
    cases hg : phoneGroup (stripCountryCode (pyStrip cs)) with
    | none => intro h; cases h
    | some g =>
      intro h
      have hc : c = '+' :: '2' :: '5' :: '4' :: g := by
        cases h; rfl
      obtain ⟨hg1, ch, rest, hgs, hch, hlen, hdig⟩ := phoneGroup_eq_some hg
      have hgl : g = ch :: rest := hg1.trans hgs
      subst hgl
      subst hc
      have hnws : ∀ x ∈ ('+' :: '2' :: '5' :: '4' :: ch :: rest),
          x.isWhitespace = false := by
        intro x hx
        simp only [List.mem_cons] at hx
        rcases hx with rfl | rfl | rfl | rfl | rfl | hx
        · decide
        · decide
        · decide
        · decide
        · rcases hch with rfl | rfl <;> decide
        · exact not_whitespace_of_isDigit x (by
            have := List.all_eq_true.mp hdig x hx
            simpa using this)
      unfold normalize_phone_number
      rw [if_neg (by simp)]
      rw [pyStrip_eq_self _ hnws]
      have hstrip : stripCountryCode ('+' :: '2' :: '5' :: '4' :: ch :: rest)
          = ch :: rest := by
        unfold stripCountryCode
        rw [if_pos (by simp)]
        simp
      rw [hstrip]
      have hpg : phoneGroup (ch :: rest) = some (ch :: rest) := by
        simp only [phoneGroup]
        rw [if_pos ⟨hch, hlen, hdig⟩]
      rw [hpg]

/-- C10 witness: the theorem applied at the concrete input `0712345678`,
whose canonical form `+254712345678` is indeed a fixed point. -/
theorem normalize_phone_number_idempotent_witness :
    normalize_phone_number ('+' :: '2' :: '5' :: '4' :: '7' :: '1' :: '2' ::
        '3' :: '4' :: '5' :: '6' :: '7' :: '8' :: []) =
      some ('+' :: '2' :: '5' :: '4' :: '7' :: '1' :: '2' :: '3' :: '4' ::
        '5' :: '6' :: '7' :: '8' :: []) :=
  normalize_phone_number_idempotent
    ('0' :: '7' :: '1' :: '2' :: '3' :: '4' :: '5' :: '6' :: '7' :: '8' :: [])
    _ (by decide)

/-! ## Row types and database state (app/models.py) -/

/-- One item of the callback metadata list (`CallbackMetadata.Item`); both
keys are optional since the payload is untrusted JSON. -/
structure MetaItem where
  name : Option String
  value : Option String
deriving DecidableEq, Repr

/-- The `Body.stkCallback` object of an inbound M-Pesa callback.  A payload
with a missing `Body`/`stkCallback` is the record with all fields absent,
since `dict.get` with a `{}` default yields `None` for every field. -/
structure StkCallback where
  merchant_request_id : Option String
  checkout_request_id : Option String
  result_code : Option String
  metadata : List MetaItem
deriving DecidableEq, Repr

/-- `str(stk_callback.get('ResultCode'))` from process_mpesa_callback: an
absent field stringifies to `"None"`. -/
def resultCodeStr (cb : StkCallback) : String :=
  match cb.result_code with
  | some s => s
  | none => "None"

/-- JSON body of the gateway's answer to the STK push POST. -/
structure PushResp where
  merchant_request_id : Option String
  checkout_request_id : Option String
  response_code : Option String
deriving DecidableEq, Repr

/-- The outbound STK push payload fields that the model tracks (`Amount`
after the int cast, `PartyA`, `AccountReference`). -/
structure PushPayload where
  amount : Int
  party_a : List Char
  account_reference : String
deriving DecidableEq, Repr

/-- What `payment_confirmation_payload` can hold: the serialized callback
data (process_mpesa_callback) or the serialized gateway error response
(initiate_stk_push failure branch). -/
inductive StoredPayload
  | callback (c : StkCallback)
  | gatewayResponse (r : PushResp)
deriving DecidableEq, Repr

/-- Payment row (app/models.py class Payment).  `booking_id` carries a
UNIQUE constraint in the schema. -/
structure Payment where
  id : Nat
  booking_id : Nat
  amount : ℚ
  currency : String
  mpesa_transaction_id : Option String
  merchant_request_id : Option String
  checkout_request_id : Option String
  status : PaymentStatus
  payment_initiation_payload : Option PushPayload
  payment_confirmation_payload : Option StoredPayload
deriving DecidableEq, Repr

/-- The slice of a Service row used by the payment path. -/
structure Service where
  name : String
  estimated_price : Option ℚ
deriving DecidableEq, Repr

/-- Booking row (app/models.py class Booking), with the client's phone
number denormalized from the joined User row. -/
structure Booking where
  id : Nat
  client_id : Nat
  freelancer_id : Nat
  service : Option Service
  status : BookingStatus
  client_phone : List Char
  freelancer_notes : Option String
deriving DecidableEq, Repr

/-- The acting logged-in user (id and role). -/
structure User where
  id : Nat
  role : UserRole
deriving DecidableEq, Repr

/-- Persistent store: the bookings and payments tables, a fresh primary key
for payments, and the list of notifications sent so far (the reference code
never sends any: all its notification calls are commented out). -/
structure DB where
  bookings : List Booking
  payments : List Payment
  nextPaymentId : Nat
  notifications : List String
deriving DecidableEq, Repr

/-! ## Gateway configuration and environment
(app/services_payment/mpesa_service.py) -/

/-- The Flask config keys read by the payment code; `none` models an unset
key. -/
structure MpesaConfig where
  consumer_key : Option String
  consumer_secret : Option String
  auth_url : Option String
  stk_push_url : Option String
  shortcode : Option String
  passkey : Option String
  callback_url_base : Option String
  default_booking_price : ℚ
deriving DecidableEq, Repr

/-- The external gateway's behaviour during one initiation: the token
endpoint's access token (`none` = request failed or no token in body) and
the STK push endpoint's JSON answer (`none` = network error / exception). -/
structure GatewayEnv where
  token_response : Option String
  push_response : Option PushResp
deriving DecidableEq, Repr

/-- One outbound network request made by the payment code. -/
inductive NetCall
  | tokenFetch
  | stkPush (amount : Int) (party_a : List Char)
deriving DecidableEq, Repr

/-- Python's `int()` on a number: truncation toward zero. -/
def pyInt (q : ℚ) : Int :=
  if 0 ≤ q then ⌊q⌋ else -⌊-q⌋

/-- mpesa_service.get_mpesa_access_token: no network call when a credential
setting is missing; otherwise one token fetch whose outcome the environment
decides.  Returns the token (if any) and the calls made. -/
def get_mpesa_access_token (cfg : MpesaConfig) (env : GatewayEnv) :
    Option String × List NetCall :=
  if cfg.consumer_key.isSome ∧ cfg.consumer_secret.isSome ∧
      cfg.auth_url.isSome then
    (env.token_response, [NetCall.tokenFetch])
  else
    (none, [])

/-- Result of initiate_stk_push: the boolean the function returns, the
payment row as left in the database, and the network calls made. -/
structure StkResult where
  ok : Bool
  payment : Payment
  calls : List NetCall
deriving DecidableEq, Repr

/-- mpesa_service.initiate_stk_push: token fetch, config check, phone
normalization, then the push POST; on `ResponseCode == "0"` persist the two
correlation identifiers and the outbound payload; on any other response
code mark the payment FAILED and store both payloads; on a network error
leave the row untouched.  No amount validation is performed; the
transmitted amount is `int(payment_record.amount)`. -/
def initiate_stk_push (cfg : MpesaConfig) (env : GatewayEnv)
    (booking : Booking) (payment_record : Payment) : StkResult :=
  let tok := get_mpesa_access_token cfg env
  match tok.1 with
  | none => ⟨false, payment_record, tok.2⟩
  | some _ =>
    if cfg.stk_push_url.isSome ∧ cfg.shortcode.isSome ∧
        cfg.passkey.isSome ∧ cfg.callback_url_base.isSome then
      match normalize_phone_number booking.client_phone with
      | none => ⟨false, payment_record, tok.2⟩
      | some client_phone =>
        let party_a := client_phone.dropWhile (· = '+')
        let payload : PushPayload :=
          ⟨pyInt payment_record.amount, party_a,
            "BOOK" ++ toString booking.id⟩
        let calls := tok.2 ++ [NetCall.stkPush payload.amount party_a]
        match env.push_response with
        | none => ⟨false, payment_record, calls⟩
        | some resp =>
          if resp.response_code = some ("0") then
            ⟨true,
              { payment_record with
                merchant_request_id := resp.merchant_request_id,
                checkout_request_id := resp.checkout_request_id,
                payment_initiation_payload := some payload },
              calls⟩
          else
            ⟨false,
              { payment_record with
                status := PaymentStatus.failed,
                payment_initiation_payload := some payload,
                payment_confirmation_payload :=
                  some (StoredPayload.gatewayResponse resp) },
              calls⟩
    else
      ⟨false, payment_record, tok.2⟩

/-! ## Payment initiation route (app/routes_payment.py) -/

/-- Observable outcome of the initiate route (flash/redirect/abort). -/
inductive InitiateOutcome
  | forbidden
  | notFound
  | notConfirmed
  | alreadyPaid
  | alreadyInFlight
  | createFailed
  | pushInitiated
  | pushFailed
deriving DecidableEq, Repr

structure InitiateResult where
  outcome : InitiateOutcome
  db : DB
  calls : List NetCall
deriving DecidableEq, Repr

/-- `Booking.query.filter_by(id=booking_id, client_id=current_user.id)`. -/
def findBookingFor (db : DB) (uid bid : Nat) : Option Booking :=
  db.bookings.find? (fun b => b.id == bid && b.client_id == uid)

/-- `Payment.query.filter_by(booking_id=booking.id).first()`. -/
def findPaymentByBooking (db : DB) (bid : Nat) : Option Payment :=
  db.payments.find? (fun p => p.booking_id == bid)

/-- Commit of mutations to the payment row the session is holding: replace
the first row whose booking reference matches. -/
def updatePaymentForBooking (bid : Nat) (p' : Payment) :
    List Payment → List Payment
  | [] => []
  | p :: ps =>
    if p.booking_id == bid then p' :: ps
    else p :: updatePaymentForBooking bid p' ps

/-- The tail of initiate_booking_payment: run initiate_stk_push on the
prepared PENDING row and commit whatever row state it left. -/
def pushPhase (cfg : MpesaConfig) (env : GatewayEnv) (booking : Booking)
    (p0 : Payment) (db1 : DB) : InitiateResult :=
  let r := initiate_stk_push cfg env booking p0
  ⟨if r.ok then InitiateOutcome.pushInitiated else InitiateOutcome.pushFailed,
    { db1 with
      payments := updatePaymentForBooking booking.id r.payment db1.payments },
    r.calls⟩

/-- routes_payment.initiate_booking_payment.  A non-client is rejected by
the roles_required decorator; the booking is fetched by (id, client);
payment must not exist as SUCCESSFUL/PENDING; a FAILED row is reset and
reused; an existing REFUNDED row makes the fresh insert violate the UNIQUE
constraint on booking_id, so that commit raises and is rolled back. -/
def initiate_booking_payment (cfg : MpesaConfig) (env : GatewayEnv)
    (user : User) (db : DB) (bid : Nat) : InitiateResult :=
  if user.role ≠ UserRole.client then ⟨InitiateOutcome.forbidden, db, []⟩
  else
    match findBookingFor db user.id bid with
    | none => ⟨InitiateOutcome.notFound, db, []⟩
    | some booking =>
      if booking.status ≠ BookingStatus.confirmed then
        ⟨InitiateOutcome.notConfirmed, db, []⟩
      else
        match findPaymentByBooking db booking.id with
        | some ep =>
          if ep.status = PaymentStatus.successful then
            ⟨InitiateOutcome.alreadyPaid, db, []⟩
          else if ep.status = PaymentStatus.pending then
            ⟨InitiateOutcome.alreadyInFlight, db, []⟩
          else if ep.status = PaymentStatus.failed then
            let p0 := { ep with
              status := PaymentStatus.pending,
              mpesa_transaction_id := none,
              merchant_request_id := none,
              checkout_request_id := none,
              payment_confirmation_payload := none }
            pushPhase cfg env booking p0
              { db with
                payments := updatePaymentForBooking booking.id p0 db.payments }
          else
            ⟨InitiateOutcome.createFailed, db, []⟩
        | none =>
          let amount0 : ℚ :=
            match booking.service with
            | some s =>
              match s.estimated_price with
              | some pr =>
                if pr = 0 then cfg.default_booking_price else pr
              | none => cfg.default_booking_price
            | none => cfg.default_booking_price
          let amount := if amount0 ≤ 0 then 1 else amount0
          let p0 : Payment :=
            ⟨db.nextPaymentId, booking.id, amount, "KES", none, none, none,
              PaymentStatus.pending, none, none⟩
          pushPhase cfg env booking p0
            { db with
              payments := db.payments ++ [p0],
              nextPaymentId := db.nextPaymentId + 1 }

/-! ## Callback processing (mpesa_service.process_mpesa_callback and the
routes_payment.mpesa_callback endpoint) -/

/-- `Payment.query.filter_by(checkout_request_id=..., merchant_request_id=...)`:
SQLAlchemy renders a `None` value as `IS NULL`, so plain Option equality is
the faithful match. -/
def paymentMatchesCb (p : Payment) (mrid crid : Option String) : Bool :=
  p.checkout_request_id == crid && p.merchant_request_id == mrid

/-- The mutation process_mpesa_callback applies to the matched row: store
the raw payload; on result code "0" set status SUCCESSFUL and scan the
metadata for the item named MpesaReceiptNumber (its value overwrites the
transaction id; no item leaves it untouched); otherwise set FAILED. -/
def applyCbRow (cb : StkCallback) (p : Payment) : Payment :=
  let p1 := { p with
    payment_confirmation_payload := some (StoredPayload.callback cb) }
  if resultCodeStr cb = "0" then
    { p1 with
      status := PaymentStatus.successful,
      mpesa_transaction_id :=
        cb.metadata.foldl
          (fun acc item =>
            if item.name == some ("MpesaReceiptNumber") then item.value
            else acc)
          p.mpesa_transaction_id }
  else
    { p1 with status := PaymentStatus.failed }

/-- Find the first payment row matching the callback's correlation pair and
rewrite it; `none` when no row matches. -/
def applyCbList (cb : StkCallback) : List Payment → Option (List Payment)
  | [] => none
  | p :: ps =>
    if paymentMatchesCb p cb.merchant_request_id cb.checkout_request_id then
      some (applyCbRow cb p :: ps)
    else
      (applyCbList cb ps).map (p :: ·)

/-- mpesa_service.process_mpesa_callback: returns True and commits the row
mutation when a payment matches the correlation pair, False with the store
untouched otherwise. -/
def process_mpesa_callback (db : DB) (cb : StkCallback) : Bool × DB :=
  match applyCbList cb db.payments with
  | some ps => (true, { db with payments := ps })
  | none => (false, db)

/-- routes_payment.mpesa_callback: acknowledge with HTTP 200 and body
ResultCode 0 on success, ResultCode 1 (retry-eliciting non-success body) on
failure.  Result is ((ack result code, HTTP status), new store). -/
def mpesa_callback (db : DB) (cb : StkCallback) : (Nat × Nat) × DB :=
  let r := process_mpesa_callback db cb
  if r.1 then ((0, 200), r.2) else ((1, 200), r.2)

/-! ## Booking status transitions (app/routes_main.py) -/

/-- Observable outcome of a booking transition route. -/
inductive BookingOutcome
  | notFound
  | forbidden
  | invalidTransition
  | ok
deriving DecidableEq, Repr

/-- `Booking.query.get_or_404(booking_id)`. -/
def findBooking (db : DB) (bid : Nat) : Option Booking :=
  db.bookings.find? (fun b => b.id == bid)

/-- Commit of mutations to the booking row the session is holding. -/
def updateBooking (bid : Nat) (b' : Booking) : List Booking → List Booking
  | [] => []
  | b :: bs =>
    if b.id == bid then b' :: bs else b :: updateBooking bid b' bs

/-- routes_main.confirm_booking: freelancer role, owning freelancer,
PENDING → CONFIRMED (with a fixed freelancer note). -/
def confirm_booking (user : User) (db : DB) (bid : Nat) :
    BookingOutcome × DB :=
  if user.role ≠ UserRole.freelancer then (BookingOutcome.forbidden, db)
  else
    match findBooking db bid with
    | none => (BookingOutcome.notFound, db)
    | some b =>
      if b.freelancer_id ≠ user.id then (BookingOutcome.forbidden, db)
      else if b.status ≠ BookingStatus.pending then
        (BookingOutcome.invalidTransition, db)
      else
        let b' := { b with
          status := BookingStatus.confirmed,
          freelancer_notes := some ("Booking confirmed by freelancer.") }
        (BookingOutcome.ok,
          { db with bookings := updateBooking bid b' db.bookings })

/-- routes_main.reject_booking: freelancer role, owning freelancer,
PENDING → CANCELLED_FREELANCER. -/
def reject_booking (user : User) (db : DB) (bid : Nat) :
    BookingOutcome × DB :=
  if user.role ≠ UserRole.freelancer then (BookingOutcome.forbidden, db)
  else
    match findBooking db bid with
    | none => (BookingOutcome.notFound, db)
    | some b =>
      if b.freelancer_id ≠ user.id then (BookingOutcome.forbidden, db)
      else if b.status ≠ BookingStatus.pending then
        (BookingOutcome.invalidTransition, db)
      else
        let b' := { b with
          status := BookingStatus.cancelled_freelancer,
          freelancer_notes := some ("Booking rejected by freelancer.") }
        (BookingOutcome.ok,
          { db with bookings := updateBooking bid b' db.bookings })

/-- routes_main.cancel_booking_client: client role, owning client,
{PENDING, CONFIRMED} → CANCELLED_CLIENT. -/
def cancel_booking_client (user : User) (db : DB) (bid : Nat) :
    BookingOutcome × DB :=
  if user.role ≠ UserRole.client then (BookingOutcome.forbidden, db)
  else
    match findBooking db bid with
    | none => (BookingOutcome.notFound, db)
    | some b =>
      if b.client_id ≠ user.id then (BookingOutcome.forbidden, db)
      else if b.status ≠ BookingStatus.pending ∧
          b.status ≠ BookingStatus.confirmed then
        (BookingOutcome.invalidTransition, db)
      else
        let b' := { b with status := BookingStatus.cancelled_client }
        (BookingOutcome.ok,
          { db with bookings := updateBooking bid b' db.bookings })

/-- routes_main.mark_booking_completed: freelancer role, owning freelancer,
CONFIRMED → COMPLETED. -/
def mark_booking_completed (user : User) (db : DB) (bid : Nat) :
    BookingOutcome × DB :=
  if user.role ≠ UserRole.freelancer then (BookingOutcome.forbidden, db)
  else
    match findBooking db bid with
    | none => (BookingOutcome.notFound, db)
    | some b =>
      if b.freelancer_id ≠ user.id then (BookingOutcome.forbidden, db)
      else if b.status ≠ BookingStatus.confirmed then
        (BookingOutcome.invalidTransition, db)
      else
        let b' := { b with status := BookingStatus.completed }
        (BookingOutcome.ok,
          { db with bookings := updateBooking bid b' db.bookings })

/-! ## Reachable system states

One step is any of the repository's operations that touches the store:
creating a booking (routes_main.request_booking always inserts it with
status PENDING), initiating a payment, processing a gateway callback, or
one of the four booking transitions.  The initial store holds no payment
rows. -/

inductive Step : DB → DB → Prop
  | newBooking (db : DB) (b : Booking) (h : b.status = BookingStatus.pending) :
      Step db { db with bookings := db.bookings ++ [b] }
  | initiatePayment (cfg : MpesaConfig) (env : GatewayEnv) (user : User)
      (db : DB) (bid : Nat) :
      Step db (initiate_booking_payment cfg env user db bid).db
  | callback (db : DB) (cb : StkCallback) :
      Step db (process_mpesa_callback db cb).2
  | confirm (user : User) (db : DB) (bid : Nat) :
      Step db (confirm_booking user db bid).2
  | reject (user : User) (db : DB) (bid : Nat) :
      Step db (reject_booking user db bid).2
  | cancelClient (user : User) (db : DB) (bid : Nat) :
      Step db (cancel_booking_client user db bid).2
  | complete (user : User) (db : DB) (bid : Nat) :
      Step db (mark_booking_completed user db bid).2

/-- A store is reachable when the repository's operations produce it from a
store with no payment rows. -/
def Reachable (db : DB) : Prop :=
  ∃ db0 : DB, db0.payments = [] ∧ Relation.ReflTransGen Step db0 db

/-! ## Concrete scenario values -/

/-- Empty configuration (all gateway settings unset). -/
def cfg0 : MpesaConfig := ⟨none, none, none, none, none, none, none, 100⟩

/-- Dead gateway environment. -/
def env0 : GatewayEnv := ⟨none, none⟩

/-- A fully configured gateway. -/
def cfgC6 : MpesaConfig :=
  ⟨some ("ck"), some ("cs"), some ("authurl"), some ("stkurl"),
    some ("174379"), some ("passkey"), some ("cburl"), 100⟩

/-- A gateway that hands out a token and accepts the push with correlation
identifiers M1 / C1. -/
def envC6 : GatewayEnv :=
  ⟨some ("tok"), some ⟨some ("M1"), some ("C1"), some ("0")⟩⟩

/-- The client's raw phone number 0712345678. -/
def phoneC6 : List Char :=
  '0' :: '7' :: '1' :: '2' :: '3' :: '4' :: '5' :: '6' :: '7' :: '8' :: []

/-- `PartyA` after normalization and `lstrip('+')`: 254712345678. -/
def partyC6 : List Char :=
  '2' :: '5' :: '4' :: '7' :: '1' :: '2' :: '3' :: '4' :: '5' :: '6' ::
    '7' :: '8' :: []

def svcC6 : Service := ⟨"Plumbing", some 150⟩

/-- A CONFIRMED booking of that service by client 10 with freelancer 20. -/
def bookC6 : Booking :=
  ⟨1, 10, 20, some svcC6, BookingStatus.confirmed, phoneC6, none⟩

def userC6 : User := ⟨10, UserRole.client⟩

/-- Store holding the confirmed booking and no payment yet. -/
def dbC6 : DB := ⟨[bookC6], [], 0, []⟩

/-- Store after the client initiates payment: one PENDING payment of 150
with the correlation identifiers persisted. -/
def db1C6 : DB := (initiate_booking_payment cfgC6 envC6 userC6 dbC6 1).db

/-- Success callback for that push; the settlement identifier sits in the
second metadata item, behind an `Amount` item. -/
def cbC6 : StkCallback :=
  ⟨some ("M1"), some ("C1"), some ("0"),
    [⟨some ("Amount"), some ("150")⟩,
     ⟨some ("MpesaReceiptNumber"), some ("QAR7XYZ1")⟩]⟩

/-- Store after the success callback is applied. -/
def db2C6 : DB := (process_mpesa_callback db1C6 cbC6).2

/-! ## C1: idempotent no-op guards of the initiation route -/

/-- C1: for the booking's client, initiation fails with NotConfirmed unless
the booking is CONFIRMED, returns AlreadyPaid when a SUCCESSFUL payment
exists and AlreadyInFlight when a PENDING one exists; all three paths issue
no network request and leave the store untouched. -/
theorem initiate_noop_guards (cfg : MpesaConfig) (env : GatewayEnv)
    (user : User) (db : DB) (bid : Nat) (booking : Booking)
    (hrole : user.role = UserRole.client)
    (hb : findBookingFor db user.id bid = some booking) :
    (booking.status ≠ BookingStatus.confirmed →
      initiate_booking_payment cfg env user db bid =
        ⟨InitiateOutcome.notConfirmed, db, []⟩) ∧
    (∀ p : Payment, booking.status = BookingStatus.confirmed →
      findPaymentByBooking db booking.id = some p →
      p.status = PaymentStatus.successful →
      initiate_booking_payment cfg env user db bid =
        ⟨InitiateOutcome.alreadyPaid, db, []⟩) ∧
    (∀ p : Payment, booking.status = BookingStatus.confirmed →
      findPaymentByBooking db booking.id = some p →
      p.status = PaymentStatus.pending →
      initiate_booking_payment cfg env user db bid =
        ⟨InitiateOutcome.alreadyInFlight, db, []⟩) := by
  refine ⟨fun hns => ?_, fun p hc hp hs => ?_, fun p hc hp hs => ?_⟩
  · simp [initiate_booking_payment, hrole, hb, hns]
  · simp [initiate_booking_payment, hrole, hb, hc, hp, hs]
  · simp [initiate_booking_payment, hrole, hb, hc, hp, hs]

/-- A PENDING booking owned by client 10. -/
def bookPendingW : Booking :=
  ⟨5, 10, 20, none, BookingStatus.pending, phoneC6, none⟩

def dbPendingW : DB := ⟨[bookPendingW], [], 0, []⟩

/-- C1 witness: on a store whose only booking is PENDING, the route answers
NotConfirmed and changes nothing. -/
theorem initiate_noop_guards_witness :
    initiate_booking_payment cfg0 env0 userC6 dbPendingW 5 =
      ⟨InitiateOutcome.notConfirmed, dbPendingW, []⟩ :=
  (initiate_noop_guards cfg0 env0 userC6 dbPendingW 5 bookPendingW rfl
    (by decide)).1 (by decide)

/-! ## C6: success round trip at amount 150 -/

/-- C6: initiating payment for the confirmed 150-shilling booking persists
a PENDING payment of 150 with correlation identifiers M1/C1, and applying
the success callback (result code "0") ends with status SUCCESSFUL and
transaction id QAR7XYZ1, taken from the metadata item named
MpesaReceiptNumber although it is not the first item. -/
theorem payment_roundtrip_150 :
    (initiate_booking_payment cfgC6 envC6 userC6 dbC6 1).outcome =
        InitiateOutcome.pushInitiated ∧
    (findPaymentByBooking db1C6 1).map Payment.amount = some (150 : ℚ) ∧
    (findPaymentByBooking db1C6 1).map Payment.status =
        some PaymentStatus.pending ∧
    (findPaymentByBooking db1C6 1).map Payment.merchant_request_id =
        some (some ("M1")) ∧
    (findPaymentByBooking db1C6 1).map Payment.checkout_request_id =
        some (some ("C1")) ∧
    (process_mpesa_callback db1C6 cbC6).1 = true ∧
    (findPaymentByBooking db2C6 1).map Payment.status =
        some PaymentStatus.successful ∧
    (findPaymentByBooking db2C6 1).map Payment.mpesa_transaction_id =
        some (some ("QAR7XYZ1")) := by
  decide

/-! ## C4: behaviour on a payload missing a required field -/

/-- A PENDING payment awaiting its callback, correlation pair M4/C4. -/
def payC4 : Payment :=
  ⟨0, 3, 80, "KES", none, some ("M4"), some ("C4"), PaymentStatus.pending,
    none, none⟩

def dbC4 : DB := ⟨[], [payC4], 1, []⟩

/-- A callback carrying the correlation pair but no ResultCode at all. -/
def cbC4 : StkCallback := ⟨some ("M4"), some ("C4"), none, []⟩

/-- C4 counterexample: a payload with an absent result_code is NOT rejected
as malformed: the matched payment is mutated (marked FAILED, payload
stored) and the processor reports success. -/
theorem malformed_callback_cex :
    (process_mpesa_callback dbC4 cbC4).1 = true ∧
    (findPaymentByBooking (process_mpesa_callback dbC4 cbC4).2 3).map
        Payment.status = some PaymentStatus.failed ∧
    (process_mpesa_callback dbC4 cbC4).2 ≠ dbC4 := by
  decide

/-! ## C5: unknown correlation pair -/

lemma applyCbList_eq_none (cb : StkCallback) (ps : List Payment)
    (h : ∀ p ∈ ps,
      paymentMatchesCb p cb.merchant_request_id cb.checkout_request_id
        = false) :
    applyCbList cb ps = none := by
  induction ps with
  | nil => rfl
  | cons p ps ih =>
    simp [applyCbList, h p (List.mem_cons_self p ps),
      ih (fun q hq => h q (List.mem_cons_of_mem p hq))]

/-- C5: a well-formed callback whose correlation pair matches no payment
row makes the processor fail with no mutation, and the ingress returns the
retry-eliciting non-success acknowledgment body (ResultCode 1, HTTP 200). -/
theorem unknown_correlation_rejected (db : DB) (cb : StkCallback)
    (m c : String)
    (hm : cb.merchant_request_id = some m)
    (hc : cb.checkout_request_id = some c)
    (hno : ∀ p ∈ db.payments,
      paymentMatchesCb p cb.merchant_request_id cb.checkout_request_id
        = false) :
    process_mpesa_callback db cb = (false, db) ∧
    mpesa_callback db cb = ((1, 200), db) := by
  have h1 : process_mpesa_callback db cb = (false, db) := by
    unfold process_mpesa_callback
    rw [applyCbList_eq_none cb db.payments hno]
  refine ⟨h1, ?_⟩
  unfold mpesa_callback
  rw [h1]
  rfl

/-- Payment awaiting callback MA/CA for booking 2. -/
def payC5 : Payment :=
  ⟨0, 2, 50, "KES", none, some ("MA"), some ("CA"), PaymentStatus.pending,
    none, none⟩

def dbC5 : DB := ⟨[], [payC5], 1, []⟩

/-- Callback for an unknown correlation pair MX/CX. -/
def cbC5 : StkCallback := ⟨some ("MX"), some ("CX"), some ("0"), []⟩

/-- C5 witness: concrete unknown-correlation callback is acknowledged with
ResultCode 1 and mutates nothing. -/
theorem unknown_correlation_rejected_witness :
    mpesa_callback dbC5 cbC5 = ((1, 200), dbC5) :=
  (unknown_correlation_rejected dbC5 cbC5 "MX" "CX" rfl rfl (by decide)).2

/-! ## C9: no amount validation in the push client -/

/-- A PENDING payment whose amount is 0 (non-positive). -/
def payC9 : Payment :=
  ⟨0, 1, 0, "KES", none, none, none, PaymentStatus.pending, none, none⟩

/-- C9 counterexample: initiate_stk_push performs no InvalidAmount check:
at amount 0 it issues the token fetch and transmits Amount 0 to the
gateway, and the initiation succeeds. -/
theorem push_no_amount_validation_cex :
    (initiate_stk_push cfgC6 envC6 bookC6 payC9).calls =
      [NetCall.tokenFetch, NetCall.stkPush 0 partyC6] ∧
    (initiate_stk_push cfgC6 envC6 bookC6 payC9).ok = true := by
  decide

/-! ## Helper lemmas about callback application -/

lemma applyCbRow_status (cb : StkCallback) (p : Payment) :
    (applyCbRow cb p).status =
      if resultCodeStr cb = "0" then PaymentStatus.successful
      else PaymentStatus.failed := by
  simp only [applyCbRow]
  split <;> rfl

lemma applyCbRow_payload (cb : StkCallback) (p : Payment) :
    (applyCbRow cb p).payment_confirmation_payload =
      some (StoredPayload.callback cb) := by
  simp only [applyCbRow]
  split <;> rfl

lemma applyCbRow_ids (cb : StkCallback) (p : Payment) :
    (applyCbRow cb p).merchant_request_id = p.merchant_request_id ∧
    (applyCbRow cb p).checkout_request_id = p.checkout_request_id := by
  simp only [applyCbRow]
  split <;> exact ⟨rfl, rfl⟩

lemma applyCbRow_bookingId (cb : StkCallback) (p : Payment) :
    (applyCbRow cb p).booking_id = p.booking_id := by
  simp only [applyCbRow]
  split <;> rfl

lemma applyCbList_isSome_of_match (cb : StkCallback) (ps : List Payment)
    (h : ∃ p ∈ ps,
      paymentMatchesCb p cb.merchant_request_id cb.checkout_request_id
        = true) :
    (applyCbList cb ps).isSome = true := by
  induction ps with
  | nil => obtain ⟨p, hp, -⟩ := h; cases hp
  | cons p ps ih =>
    by_cases hm : paymentMatchesCb p cb.merchant_request_id
        cb.checkout_request_id = true
    · simp [applyCbList, hm]
    · obtain ⟨q, hq, hqm⟩ := h
      rcases List.mem_cons.mp hq with rfl | hq
      · exact absurd hqm hm
      · have := ih ⟨q, hq, hqm⟩
        simp only [applyCbList, if_neg hm]
        cases happ : applyCbList cb ps with
        | none => rw [happ] at this; cases this
        | some l => simp

lemma applyCbList_mem (cb : StkCallback) (ps ps' : List Payment)
    (h : applyCbList cb ps = some ps') :
    ∀ q ∈ ps', q ∈ ps ∨ ∃ p ∈ ps, q = applyCbRow cb p := by
  induction ps generalizing ps' with
  | nil => cases h
  | cons p ps ih =>
    simp only [applyCbList] at h
    split at h
    · cases h
      intro q hq
      rcases List.mem_cons.mp hq with rfl | hq
      · exact Or.inr ⟨p, List.mem_cons_self p ps, rfl⟩
      · exact Or.inl (List.mem_cons_of_mem p hq)
    · cases happ : applyCbList cb ps with
      | none => rw [happ] at h; cases h
      | some l =>
        rw [happ] at h
        cases h
        intro q hq
        rcases List.mem_cons.mp hq with rfl | hq
        · exact Or.inl (List.mem_cons_self q ps)
        · rcases ih l happ q hq with hin | ⟨r, hr, hqr⟩
          · exact Or.inl (List.mem_cons_of_mem p hin)
          · exact Or.inr ⟨r, List.mem_cons_of_mem p hr, hqr⟩

/-! ## C4 (amended): what actually happens on a missing field -/

/-- C4 amended: with an absent result_code the processor still runs: when
the correlation identifiers match no row it fails and leaves the store
untouched, but when they match a row it reports success and the only rows
it rewrites are marked FAILED with the payload stored — there is no
MalformedCallback rejection. -/
theorem missing_field_processed_as_failure (db : DB) (cb : StkCallback)
    (h : cb.result_code = none) :
    ((process_mpesa_callback db cb).1 = false →
      (process_mpesa_callback db cb).2 = db) ∧
    ((∃ p ∈ db.payments,
        paymentMatchesCb p cb.merchant_request_id cb.checkout_request_id
          = true) →
      (process_mpesa_callback db cb).1 = true) ∧
    (∀ q ∈ (process_mpesa_callback db cb).2.payments, q ∉ db.payments →
      q.status = PaymentStatus.failed ∧
      q.payment_confirmation_payload = some (StoredPayload.callback cb)) := by
  have hrc : resultCodeStr cb = "None" := by
    unfold resultCodeStr
    rw [h]
  refine ⟨?_, ?_, ?_⟩
  · intro hfail
    unfold process_mpesa_callback at hfail ⊢
    cases happ : applyCbList cb db.payments with
    | none => rfl
    | some l => rw [happ] at hfail; cases hfail
  · intro hex
    have := applyCbList_isSome_of_match cb db.payments hex
    unfold process_mpesa_callback
    cases happ : applyCbList cb db.payments with
    | none => rw [happ] at this; cases this
    | some l => rfl
  · intro q hq hnq
    unfold process_mpesa_callback at hq
    cases happ : applyCbList cb db.payments with
    | none => rw [happ] at hq; exact absurd hq hnq
    | some l =>
      rw [happ] at hq
      rcases applyCbList_mem cb db.payments l happ q hq with hin | ⟨p, -, rfl⟩
      · exact absurd hin hnq
      · refine ⟨?_, applyCbRow_payload cb p⟩
        rw [applyCbRow_status, hrc]
        rfl

/-- C4 amended witness: the concrete missing-ResultCode callback with a
matching payment makes the processor report success. -/
theorem missing_field_processed_as_failure_witness :
    (process_mpesa_callback dbC4 cbC4).1 = true :=
  (missing_field_processed_as_failure dbC4 cbC4 rfl).2.1
    ⟨payC4, by decide, by decide⟩

/-! ## C9 (amended): the transmitted amount is the int cast; the route
clamps created amounts -/

lemma updatePayment_mem (bid : Nat) (p' : Payment) (ps : List Payment) :
    ∀ q ∈ updatePaymentForBooking bid p' ps, q = p' ∨ q ∈ ps := by
  induction ps with
  | nil => intro q hq; cases hq
  | cons p ps ih =>
    intro q hq
    simp only [updatePaymentForBooking] at hq
    split at hq
    · rcases List.mem_cons.mp hq with rfl | hq
      · exact Or.inl rfl
      · exact Or.inr (List.mem_cons_of_mem p hq)
    · rcases List.mem_cons.mp hq with rfl | hq
      · exact Or.inr (List.mem_cons_self q ps)
      · rcases ih q hq with h | h
        · exact Or.inl h
        · exact Or.inr (List.mem_cons_of_mem p h)

lemma initiate_stk_push_fields (cfg : MpesaConfig) (env : GatewayEnv)
    (b : Booking) (p : Payment) :
    (initiate_stk_push cfg env b p).payment.booking_id = p.booking_id ∧
    (initiate_stk_push cfg env b p).payment.amount = p.amount ∧
    (initiate_stk_push cfg env b p).payment.mpesa_transaction_id =
      p.mpesa_transaction_id ∧
    ((initiate_stk_push cfg env b p).payment.status = p.status ∨
      (initiate_stk_push cfg env b p).payment.status =
        PaymentStatus.failed) := by
  simp only [initiate_stk_push]
  repeat' split
  all_goals first
  | exact ⟨rfl, rfl, rfl, Or.inl rfl⟩
  | exact ⟨rfl, rfl, rfl, Or.inr rfl⟩

lemma initiate_stk_push_calls (cfg : MpesaConfig) (env : GatewayEnv)
    (b : Booking) (p : Payment) :
    ∀ a phone, NetCall.stkPush a phone ∈ (initiate_stk_push cfg env b p).calls
      → a = pyInt p.amount := by
  intro a phone hmem
  simp only [initiate_stk_push, get_mpesa_access_token] at hmem
  repeat' split at hmem
  all_goals simp_all

/-- C9 amended: the STK push client never validates the amount; whenever it
transmits, the transmitted amount is `int(payment_record.amount)`, and a
Payment row freshly created by the initiation route always carries a
positive amount (the route clamps the computed price to a minimum of 1). -/
theorem push_amount_cast_and_route_clamp :
    (∀ (cfg : MpesaConfig) (env : GatewayEnv) (b : Booking) (p : Payment)
        (a : Int) (phone : List Char),
      NetCall.stkPush a phone ∈ (initiate_stk_push cfg env b p).calls →
      a = pyInt p.amount) ∧
    (∀ (cfg : MpesaConfig) (env : GatewayEnv) (user : User) (db : DB)
        (bid : Nat) (booking : Booking),
      findBookingFor db user.id bid = some booking →
      findPaymentByBooking db booking.id = none →
      ∀ q ∈ (initiate_booking_payment cfg env user db bid).db.payments,
        q ∉ db.payments → 0 < q.amount) := by
  refine ⟨fun cfg env b p => initiate_stk_push_calls cfg env b p, ?_⟩
  intro cfg env user db bid booking hb hn q hq hnq
  unfold initiate_booking_payment at hq
  split at hq
  · exact absurd hq hnq
  · rw [hb] at hq
    simp only at hq
    split at hq
    · exact absurd hq hnq
    · rw [hn] at hq
      simp only [pushPhase] at hq
      set amount0 : ℚ :=
        (match booking.service with
          | some s =>
            match s.estimated_price with
            | some pr => if pr = 0 then cfg.default_booking_price else pr
            | none => cfg.default_booking_price
          | none => cfg.default_booking_price) with hamount0
      have hpos : (0 : ℚ) < (if amount0 ≤ 0 then 1 else amount0) := by
        split
        · norm_num
        · rename_i hgt
          exact lt_of_not_le hgt
      rcases updatePayment_mem _ _ _ q hq with rfl | hq2
      · exact lt_of_lt_of_eq hpos
          ((initiate_stk_push_fields cfg env booking
            ⟨db.nextPaymentId, booking.id, if amount0 ≤ 0 then 1 else amount0,
              "KES", none, none, none, PaymentStatus.pending, none,
              none⟩).2.1).symm
      · rcases List.mem_append.mp hq2 with hin | hin
        · exact absurd hin hnq
        · rcases List.mem_singleton.mp hin with rfl
          exact hpos

/-- C9 amended witness: on the concrete amount-0 payment push, the
transmitted amount 0 equals the int cast of the stored amount. -/
theorem push_amount_cast_and_route_clamp_witness :
    (0 : Int) = pyInt payC9.amount :=
  push_amount_cast_and_route_clamp.1 cfgC6 envC6 bookC6 payC9 0 partyC6
    (by decide)

/-! ## C3: duplicate callbacks are idempotent -/

lemma applyCbList_again (cb cb2 : StkCallback)
    (hm : cb2.merchant_request_id = cb.merchant_request_id)
    (hc : cb2.checkout_request_id = cb.checkout_request_id)
    (hr : resultCodeStr cb2 = resultCodeStr cb)
    (ps ps1 : List Payment) (h : applyCbList cb ps = some ps1) :
    ∃ ps2, applyCbList cb2 ps1 = some ps2 ∧
      ps2.map Payment.status = ps1.map Payment.status := by
  induction ps generalizing ps1 with
  | nil => cases h
  | cons p ps ih =>
    simp only [applyCbList] at h
    split at h
    · rename_i hmatch
      cases h
      have hids := applyCbRow_ids cb p
      have hmatch2 : paymentMatchesCb (applyCbRow cb p)
          cb2.merchant_request_id cb2.checkout_request_id = true := by
        unfold paymentMatchesCb at hmatch ⊢
        rw [hids.1, hids.2, hm, hc]
        exact hmatch
      refine ⟨applyCbRow cb2 (applyCbRow cb p) :: ps, ?_, ?_⟩
      · simp [applyCbList, hmatch2]
      · simp only [List.map_cons, List.cons.injEq]
        refine ⟨by rw [applyCbRow_status, applyCbRow_status, hr], ?_⟩
        simp
    · rename_i hmatch
      cases happ : applyCbList cb ps with
      | none => rw [happ] at h; cases h
      | some l =>
        rw [happ, Option.map_some'] at h
        cases h
        obtain ⟨ps2', h2, hmap⟩ := ih l happ
        have hmatch2 : ¬ paymentMatchesCb p cb2.merchant_request_id
            cb2.checkout_request_id = true := by
          rw [hm, hc]
          exact hmatch
        refine ⟨p :: ps2', ?_, ?_⟩
        · simp [applyCbList, hmatch2, h2]
        · simp [hmap]

/-- C3: a second callback with the same correlation pair and the same
result code is processed again with success, changes no payment status,
and sends no notification. -/
theorem apply_callback_idempotent (db : DB) (cb cb2 : StkCallback)
    (h1 : (process_mpesa_callback db cb).1 = true)
    (hm : cb2.merchant_request_id = cb.merchant_request_id)
    (hc : cb2.checkout_request_id = cb.checkout_request_id)
    (hr : resultCodeStr cb2 = resultCodeStr cb) :
    (process_mpesa_callback (process_mpesa_callback db cb).2 cb2).1 = true ∧
    ((process_mpesa_callback (process_mpesa_callback db cb).2 cb2).2.payments.map
        Payment.status =
      (process_mpesa_callback db cb).2.payments.map Payment.status) ∧
    ((process_mpesa_callback (process_mpesa_callback db cb).2 cb2).2.notifications =
      (process_mpesa_callback db cb).2.notifications) := by
  cases happ : applyCbList cb db.payments with
  | none =>
    unfold process_mpesa_callback at h1
    rw [happ] at h1
    cases h1
  | some ps1 =>
    have hdb1 : process_mpesa_callback db cb =
        (true, { db with payments := ps1 }) := by
      unfold process_mpesa_callback
      rw [happ]
    obtain ⟨ps2, h2, hmap⟩ := applyCbList_again cb cb2 hm hc hr
      db.payments ps1 happ
    have hdb2 : process_mpesa_callback { db with payments := ps1 } cb2 =
        (true, { db with payments := ps2 }) := by
      unfold process_mpesa_callback
      simp only [h2]
    rw [hdb1, hdb2]
    exact ⟨rfl, hmap, rfl⟩

/-- C3 witness: re-delivering the concrete success callback after it has
been applied succeeds again with statuses unchanged. -/
theorem apply_callback_idempotent_witness :
    (process_mpesa_callback (process_mpesa_callback db1C6 cbC6).2 cbC6).1
      = true :=
  (apply_callback_idempotent db1C6 cbC6 cbC6 (by decide) rfl rfl rfl).1

/-! ## C8: the booking transition table -/

lemma findBooking_id {db : DB} {bid : Nat} {b : Booking}
    (h : findBooking db bid = some b) : b.id = bid := by
  have := List.find?_some h
  simpa using this

lemma find_update_list (bid : Nat) (b' : Booking) (bs : List Booking)
    (h : ∃ b, bs.find? (fun x => x.id == bid) = some b) (hid : b'.id = bid) :
    (updateBooking bid b' bs).find? (fun x => x.id == bid) = some b' := by
  induction bs with
  | nil => obtain ⟨b, hb⟩ := h; cases hb
  | cons x xs ih =>
    by_cases hx : (x.id == bid) = true
    · simp only [updateBooking, if_pos hx]
      simp [List.find?, hid]
    · have hx' : (x.id == bid) = false := by simpa using hx
      simp only [updateBooking, if_neg hx, List.find?, hx']
      refine ih ?_
      obtain ⟨b, hb⟩ := h
      simp only [List.find?, hx'] at hb
      exact ⟨b, hb⟩

lemma findBooking_update (db : DB) (bid : Nat) (b b' : Booking)
    (hb : findBooking db bid = some b) (hid : b'.id = bid) :
    findBooking { db with bookings := updateBooking bid b' db.bookings } bid
      = some b' := by
  unfold findBooking at hb ⊢
  exact find_update_list bid b' db.bookings ⟨b, hb⟩ hid

/-- Characterization of one freelancer-gated transition route (used for
confirm, reject and mark-complete, which share their guard structure):
success exactly for the owning freelancer from the allowed source status,
moving to the target status; every failure leaves the store untouched,
non-owners get Forbidden and wrong source statuses get InvalidTransition. -/
def FreelancerTransitionSpec (op : User → DB → Nat → BookingOutcome × DB)
    (src tgt : BookingStatus) (u : User) (db : DB) (bid : Nat)
    (b : Booking) : Prop :=
  ((op u db bid).1 = BookingOutcome.ok ↔
    u.role = UserRole.freelancer ∧ b.freelancer_id = u.id ∧
      b.status = src) ∧
  ((op u db bid).1 ≠ BookingOutcome.ok → (op u db bid).2 = db) ∧
  ((op u db bid).1 = BookingOutcome.ok →
    (findBooking (op u db bid).2 bid).map Booking.status = some tgt) ∧
  (u.role = UserRole.freelancer → b.freelancer_id ≠ u.id →
    (op u db bid).1 = BookingOutcome.forbidden) ∧
  (u.role = UserRole.freelancer → b.freelancer_id = u.id → b.status ≠ src →
    (op u db bid).1 = BookingOutcome.invalidTransition)

/-- Characterization of the client cancel route: success exactly for the
owning client from PENDING or CONFIRMED, moving to CANCELLED_CLIENT. -/
def ClientCancelSpec (u : User) (db : DB) (bid : Nat) (b : Booking) : Prop :=
  ((cancel_booking_client u db bid).1 = BookingOutcome.ok ↔
    u.role = UserRole.client ∧ b.client_id = u.id ∧
      (b.status = BookingStatus.pending ∨
        b.status = BookingStatus.confirmed)) ∧
  ((cancel_booking_client u db bid).1 ≠ BookingOutcome.ok →
    (cancel_booking_client u db bid).2 = db) ∧
  ((cancel_booking_client u db bid).1 = BookingOutcome.ok →
    (findBooking (cancel_booking_client u db bid).2 bid).map Booking.status =
      some BookingStatus.cancelled_client) ∧
  (u.role = UserRole.client → b.client_id ≠ u.id →
    (cancel_booking_client u db bid).1 = BookingOutcome.forbidden) ∧
  (u.role = UserRole.client → b.client_id = u.id →
    b.status ≠ BookingStatus.pending → b.status ≠ BookingStatus.confirmed →
    (cancel_booking_client u db bid).1 = BookingOutcome.invalidTransition)

lemma confirm_booking_spec (u : User) (db : DB) (bid : Nat) (b : Booking)
    (hb : findBooking db bid = some b) :
    FreelancerTransitionSpec confirm_booking BookingStatus.pending
      BookingStatus.confirmed u db bid b := by
  have hbid : b.id = bid := findBooking_id hb
  unfold FreelancerTransitionSpec
  simp only [confirm_booking, hb]
  split_ifs with h1 h2 h3
  · exact ⟨by simp [h1], fun _ => rfl, by simp,
      fun hrole _ => absurd hrole h1, fun hrole _ _ => absurd hrole h1⟩
  · exact ⟨by simp [h2], fun _ => rfl, by simp,
      fun _ _ => rfl, fun _ hown _ => absurd hown h2⟩
  · exact ⟨by simp [h3], fun _ => rfl, by simp,
      fun _ hown => absurd (not_not.mp h2) hown, fun _ _ _ => rfl⟩
  · refine ⟨by simp [not_not.mp h1, not_not.mp h2, not_not.mp h3],
      fun hne => absurd rfl hne, fun _ => ?_,
      fun _ hown => absurd (not_not.mp h2) hown,
      fun _ _ hst => absurd (not_not.mp h3) hst⟩
    have hupd := findBooking_update db bid b
      ({ b with
        status := BookingStatus.confirmed,
        freelancer_notes := some ("Booking confirmed by freelancer.") })
      hb hbid
    simp only [hupd, Option.map_some']

lemma reject_booking_spec (u : User) (db : DB) (bid : Nat) (b : Booking)
    (hb : findBooking db bid = some b) :
    FreelancerTransitionSpec reject_booking BookingStatus.pending
      BookingStatus.cancelled_freelancer u db bid b := by
  have hbid : b.id = bid := findBooking_id hb
  unfold FreelancerTransitionSpec
  simp only [reject_booking, hb]
  split_ifs with h1 h2 h3
  · exact ⟨by simp [h1], fun _ => rfl, by simp,
      fun hrole _ => absurd hrole h1, fun hrole _ _ => absurd hrole h1⟩
  · exact ⟨by simp [h2], fun _ => rfl, by simp,
      fun _ _ => rfl, fun _ hown _ => absurd hown h2⟩
  · exact ⟨by simp [h3], fun _ => rfl, by simp,
      fun _ hown => absurd (not_not.mp h2) hown, fun _ _ _ => rfl⟩
  · refine ⟨by simp [not_not.mp h1, not_not.mp h2, not_not.mp h3],
      fun hne => absurd rfl hne, fun _ => ?_,
      fun _ hown => absurd (not_not.mp h2) hown,
      fun _ _ hst => absurd (not_not.mp h3) hst⟩
    have hupd := findBooking_update db bid b
      ({ b with
        status := BookingStatus.cancelled_freelancer,
        freelancer_notes := some ("Booking rejected by freelancer.") })
      hb hbid
    simp only [hupd, Option.map_some']

lemma mark_booking_completed_spec (u : User) (db : DB) (bid : Nat)
    (b : Booking) (hb : findBooking db bid = some b) :
    FreelancerTransitionSpec mark_booking_completed BookingStatus.confirmed
      BookingStatus.completed u db bid b := by
  have hbid : b.id = bid := findBooking_id hb
  unfold FreelancerTransitionSpec
  simp only [mark_booking_completed, hb]
  split_ifs with h1 h2 h3
  · exact ⟨by simp [h1], fun _ => rfl, by simp,
      fun hrole _ => absurd hrole h1, fun hrole _ _ => absurd hrole h1⟩
  · exact ⟨by simp [h2], fun _ => rfl, by simp,
      fun _ _ => rfl, fun _ hown _ => absurd hown h2⟩
  · exact ⟨by simp [h3], fun _ => rfl, by simp,
      fun _ hown => absurd (not_not.mp h2) hown, fun _ _ _ => rfl⟩
  · refine ⟨by simp [not_not.mp h1, not_not.mp h2, not_not.mp h3],
      fun hne => absurd rfl hne, fun _ => ?_,
      fun _ hown => absurd (not_not.mp h2) hown,
      fun _ _ hst => absurd (not_not.mp h3) hst⟩
    have hupd := findBooking_update db bid b
      ({ b with status := BookingStatus.completed }) hb hbid
    simp only [hupd, Option.map_some']

lemma cancel_booking_client_spec (u : User) (db : DB) (bid : Nat)
    (b : Booking) (hb : findBooking db bid = some b) :
    ClientCancelSpec u db bid b := by
  have hbid : b.id = bid := findBooking_id hb
  unfold ClientCancelSpec
  simp only [cancel_booking_client, hb]
  split_ifs with h1 h2 h3
  · exact ⟨by simp [h1], fun _ => rfl, by simp,
      fun hrole _ => absurd hrole h1, fun hrole _ _ _ => absurd hrole h1⟩
  · exact ⟨by simp [h2], fun _ => rfl, by simp,
      fun _ _ => rfl, fun _ hown _ _ => absurd hown h2⟩
  · exact ⟨by simp [h3.1, h3.2], fun _ => rfl, by simp,
      fun _ hown => absurd (not_not.mp h2) hown, fun _ _ _ _ => rfl⟩
  · have hst : b.status = BookingStatus.pending ∨
        b.status = BookingStatus.confirmed := by
      rcases not_and_or.mp h3 with h | h
      · exact Or.inl (not_not.mp h)
      · exact Or.inr (not_not.mp h)
    refine ⟨by simp [not_not.mp h1, not_not.mp h2, hst],
      fun hne => absurd rfl hne, fun _ => ?_,
      fun _ hown => absurd (not_not.mp h2) hown,
      fun _ _ hp hc => absurd ⟨hp, hc⟩ h3⟩
    have hupd := findBooking_update db bid b
      ({ b with status := BookingStatus.cancelled_client }) hb hbid
    simp only [hupd, Option.map_some']

/-- C8: for every booking in the store, the four transition routes follow
the transition table exactly: freelancer confirm PENDING → CONFIRMED,
freelancer reject PENDING → CANCELLED_FREELANCER, freelancer mark-complete
CONFIRMED → COMPLETED, client cancel PENDING/CONFIRMED → CANCELLED_CLIENT;
a non-owner gets Forbidden, a wrong source status gets InvalidTransition,
and every failing attempt leaves the store untouched. -/
theorem booking_transitions_follow_table (u : User) (db : DB) (bid : Nat)
    (b : Booking) (hb : findBooking db bid = some b) :
    FreelancerTransitionSpec confirm_booking BookingStatus.pending
      BookingStatus.confirmed u db bid b ∧
    FreelancerTransitionSpec reject_booking BookingStatus.pending
      BookingStatus.cancelled_freelancer u db bid b ∧
    FreelancerTransitionSpec mark_booking_completed BookingStatus.confirmed
      BookingStatus.completed u db bid b ∧
    ClientCancelSpec u db bid b :=
  ⟨confirm_booking_spec u db bid b hb, reject_booking_spec u db bid b hb,
    mark_booking_completed_spec u db bid b hb,
    cancel_booking_client_spec u db bid b hb⟩

/-- C8 witness: the owning freelancer confirming the concrete PENDING
booking succeeds. -/
theorem booking_transitions_follow_table_witness :
    (confirm_booking ⟨20, UserRole.freelancer⟩ dbPendingW 5).1 =
      BookingOutcome.ok :=
  ((booking_transitions_follow_table ⟨20, UserRole.freelancer⟩ dbPendingW 5
    bookPendingW (by decide)).1).1.mpr ⟨rfl, rfl, rfl⟩

/-! ## C2 / C7: invariants over reachable stores -/

/-- At most one payment row per booking: the booking references of the
payment rows are pairwise distinct (the UNIQUE constraint on
Payment.booking_id). -/
def OnePaymentPerBooking (db : DB) : Prop :=
  (db.payments.map Payment.booking_id).Pairwise (fun a b => a ≠ b)

/-- A PENDING payment row never carries a transaction id. -/
def PendingHasNoTxn (db : DB) : Prop :=
  ∀ p ∈ db.payments, p.status = PaymentStatus.pending →
    p.mpesa_transaction_id = none

def PaymentsInv (db : DB) : Prop :=
  OnePaymentPerBooking db ∧ PendingHasNoTxn db

lemma inv_of_payments_eq {db db' : DB} (h : db'.payments = db.payments) :
    PaymentsInv db → PaymentsInv db' := by
  intro hi
  unfold PaymentsInv OnePaymentPerBooking PendingHasNoTxn at hi ⊢
  rw [h]
  exact hi

lemma updatePayment_map_bookingId (bid : Nat) (p' : Payment)
    (ps : List Payment) (h : p'.booking_id = bid) :
    (updatePaymentForBooking bid p' ps).map Payment.booking_id =
      ps.map Payment.booking_id := by
  induction ps with
  | nil => rfl
  | cons p ps ih =>
    simp only [updatePaymentForBooking]
    split
    · rename_i hp
      simp only [List.map_cons, List.cons.injEq]
      refine ⟨?_, trivial⟩
      have hpb : p.booking_id = bid := by simpa using hp
      rw [h, hpb]
    · simp only [List.map_cons, List.cons.injEq]
      exact ⟨trivial, ih⟩

lemma updatePayment_length (bid : Nat) (p' : Payment) (ps : List Payment) :
    (updatePaymentForBooking bid p' ps).length = ps.length := by
  induction ps with
  | nil => rfl
  | cons p ps ih =>
    simp only [updatePaymentForBooking]
    split
    · rfl
    · simp only [List.length_cons, ih]

lemma applyCbList_map_bookingId (cb : StkCallback) (ps ps' : List Payment)
    (h : applyCbList cb ps = some ps') :
    ps'.map Payment.booking_id = ps.map Payment.booking_id := by
  induction ps generalizing ps' with
  | nil => cases h
  | cons p ps ih =>
    simp only [applyCbList] at h
    split at h
    · cases h
      simp only [List.map_cons, List.cons.injEq]
      exact ⟨applyCbRow_bookingId cb p, trivial⟩
    · cases happ : applyCbList cb ps with
      | none => rw [happ] at h; cases h
      | some l =>
        rw [happ, Option.map_some'] at h
        cases h
        simp only [List.map_cons, List.cons.injEq]
        exact ⟨trivial, ih l happ⟩

lemma applyCbRow_not_pending (cb : StkCallback) (p : Payment) :
    (applyCbRow cb p).status ≠ PaymentStatus.pending := by
  rw [applyCbRow_status]
  split <;> simp

lemma confirm_booking_payments (u : User) (db : DB) (bid : Nat) :
    (confirm_booking u db bid).2.payments = db.payments := by
  unfold confirm_booking
  repeat' split
  all_goals rfl

lemma reject_booking_payments (u : User) (db : DB) (bid : Nat) :
    (reject_booking u db bid).2.payments = db.payments := by
  unfold reject_booking
  repeat' split
  all_goals rfl

lemma cancel_booking_client_payments (u : User) (db : DB) (bid : Nat) :
    (cancel_booking_client u db bid).2.payments = db.payments := by
  unfold cancel_booking_client
  repeat' split
  all_goals rfl

lemma mark_booking_completed_payments (u : User) (db : DB) (bid : Nat) :
    (mark_booking_completed u db bid).2.payments = db.payments := by
  unfold mark_booking_completed
  repeat' split
  all_goals rfl

lemma process_cb_inv (db : DB) (cb : StkCallback) (h : PaymentsInv db) :
    PaymentsInv (process_mpesa_callback db cb).2 := by
  unfold process_mpesa_callback
  cases happ : applyCbList cb db.payments with
  | none => exact h
  | some ps' =>
    refine ⟨?_, ?_⟩
    · unfold OnePaymentPerBooking
      show (ps'.map Payment.booking_id).Pairwise (fun a b => a ≠ b)
      rw [applyCbList_map_bookingId cb db.payments ps' happ]
      exact h.1
    · intro q hq hqp
      rcases applyCbList_mem cb db.payments ps' happ q hq with hin | ⟨p, -, rfl⟩
      · exact h.2 q hin hqp
      · exact absurd hqp (applyCbRow_not_pending cb p)

lemma pushPhase_inv (cfg : MpesaConfig) (env : GatewayEnv)
    (booking : Booking) (p0 : Payment) (db1 : DB)
    (hb : p0.booking_id = booking.id)
    (hp0 : p0.status = PaymentStatus.pending → p0.mpesa_transaction_id = none)
    (h1 : PaymentsInv db1) :
    PaymentsInv (pushPhase cfg env booking p0 db1).db := by
  have hf := initiate_stk_push_fields cfg env booking p0
  refine ⟨?_, ?_⟩
  · unfold OnePaymentPerBooking pushPhase
    show ((updatePaymentForBooking booking.id
        (initiate_stk_push cfg env booking p0).payment db1.payments).map
          Payment.booking_id).Pairwise (fun a b => a ≠ b)
    rw [updatePayment_map_bookingId _ _ _ (by rw [hf.1, hb])]
    exact h1.1
  · intro q hq hqp
    rcases updatePayment_mem _ _ _ q hq with rfl | hin
    · rw [hf.2.2.1]
      rcases hf.2.2.2 with hs | hs
      · exact hp0 (hs.symm.trans hqp)
      · exact absurd (hqp.symm.trans hs) (by decide)
    · exact h1.2 q hin hqp

lemma onePayment_append (ps : List Payment) (p0 : Payment)
    (hpair : (ps.map Payment.booking_id).Pairwise (fun a b => a ≠ b))
    (hnew : ∀ p ∈ ps, p.booking_id ≠ p0.booking_id) :
    ((ps ++ [p0]).map Payment.booking_id).Pairwise (fun a b => a ≠ b) := by
  rw [List.map_append, List.pairwise_append]
  refine ⟨hpair, by simp, ?_⟩
  intro a ha b hb
  simp only [List.map_cons, List.map_nil, List.mem_singleton] at hb
  subst hb
  obtain ⟨p, hp, rfl⟩ := List.mem_map.mp ha
  exact hnew p hp

lemma initiate_inv (cfg : MpesaConfig) (env : GatewayEnv) (user : User)
    (db : DB) (bid : Nat) (h : PaymentsInv db) :
    PaymentsInv (initiate_booking_payment cfg env user db bid).db := by
  by_cases hrole : user.role ≠ UserRole.client
  · simp only [initiate_booking_payment, if_pos hrole]
    exact h
  · simp only [initiate_booking_payment, if_neg hrole]
    cases hfb : findBookingFor db user.id bid with
    | none =>
      simp only [hfb]
      exact h
    | some booking =>
      simp only [hfb]
      by_cases hcs : booking.status ≠ BookingStatus.confirmed
      · rw [if_pos hcs]
        exact h
      · rw [if_neg hcs]
        cases hfp : findPaymentByBooking db booking.id with
        | some ep =>
          simp only [hfp]
          split_ifs with hs1 hs2 hs3
          · exact h
          · exact h
          · have hepb : ep.booking_id = booking.id := by
              have := List.find?_some hfp
              simpa using this
            apply pushPhase_inv
            · exact hepb
            · intro _
              rfl
            · refine ⟨?_, ?_⟩
              · unfold OnePaymentPerBooking
                have hmap := updatePayment_map_bookingId booking.id
                  ({ ep with
                    status := PaymentStatus.pending,
                    mpesa_transaction_id := none,
                    merchant_request_id := none,
                    checkout_request_id := none,
                    payment_confirmation_payload := none })
                  db.payments hepb
                show ((updatePaymentForBooking booking.id _
                    db.payments).map Payment.booking_id).Pairwise
                      (fun a b => a ≠ b)
                rw [hmap]
                exact h.1
              · intro q hq hqp
                rcases updatePayment_mem _ _ _ q hq with rfl | hin
                · rfl
                · exact h.2 q hin hqp
          · exact h
        | none =>
          simp only [hfp]
          apply pushPhase_inv
          · rfl
          · intro _
            rfl
          · refine ⟨?_, ?_⟩
            · apply onePayment_append _ _ h.1
              intro p hp
              have := List.find?_eq_none.mp hfp p hp
              simpa using this
            · intro q hq hqp
              rcases List.mem_append.mp hq with hin | hone
              · exact h.2 q hin hqp
              · rcases List.mem_singleton.mp hone with rfl
                rfl

lemma step_preserves_inv {db db' : DB} (hs : Step db db') :
    PaymentsInv db → PaymentsInv db' := by
  intro h
  cases hs with
  | newBooking db b hb => exact h
  | initiatePayment cfg env user db bid =>
    exact initiate_inv cfg env user db bid h
  | callback db cb => exact process_cb_inv db cb h
  | confirm user db bid =>
    exact inv_of_payments_eq (confirm_booking_payments user db bid) h
  | reject user db bid =>
    exact inv_of_payments_eq (reject_booking_payments user db bid) h
  | cancelClient user db bid =>
    exact inv_of_payments_eq (cancel_booking_client_payments user db bid) h
  | complete user db bid =>
    exact inv_of_payments_eq (mark_booking_completed_payments user db bid) h

lemma reachable_inv (db : DB) (h : Reachable db) : PaymentsInv db := by
  obtain ⟨db0, h0, hsteps⟩ := h
  induction hsteps with
  | refl =>
    refine ⟨?_, ?_⟩
    · unfold OnePaymentPerBooking
      rw [h0]
      simp
    · intro p hp
      rw [h0] at hp
      cases hp
  | tail hsteps hstep ih => exact step_preserves_inv hstep ih

lemma filter_booking_length (l : List Payment)
    (h : (l.map Payment.booking_id).Pairwise (fun a b => a ≠ b)) (k : Nat) :
    (l.filter (fun p => p.booking_id == k)).length ≤ 1 := by
  induction l with
  | nil => simp
  | cons p ps ih =>
    rw [List.map_cons, List.pairwise_cons] at h
    by_cases hp : (p.booking_id == k) = true
    · have hk : p.booking_id = k := by simpa using hp
      have hnil : ps.filter (fun q => q.booking_id == k) = [] := by
        cases hf : ps.filter (fun q => q.booking_id == k) with
        | nil => rfl
        | cons q qs =>
          have hq : q ∈ ps.filter (fun q => q.booking_id == k) :=
            hf ▸ List.mem_cons_self q qs
          have hq1 := List.mem_filter.mp hq
          have hne := h.1 q.booking_id
            (List.mem_map_of_mem Payment.booking_id hq1.1)
          have hqk : q.booking_id = k := by simpa using hq1.2
          exact absurd (hk.trans hqk.symm) hne
      rw [List.filter_cons, if_pos hp, hnil]
      simp
    · rw [List.filter_cons, if_neg hp]
      exact ih h.2

/-- C2: over every reachable store, each booking has at most one payment
row (so at most one PENDING or SUCCESSFUL one); moreover, whenever a
payment row already exists for the targeted booking, initiation never adds
a row — the retry after FAILED reuses the existing row. -/
theorem at_most_one_payment_per_booking (db : DB) (h : Reachable db) :
    (∀ bid : Nat,
      (db.payments.filter (fun p => p.booking_id == bid)).length ≤ 1) ∧
    (∀ (cfg : MpesaConfig) (env : GatewayEnv) (user : User) (bid : Nat)
        (booking : Booking) (ep : Payment),
      findBookingFor db user.id bid = some booking →
      findPaymentByBooking db booking.id = some ep →
      (initiate_booking_payment cfg env user db bid).db.payments.length =
        db.payments.length) := by
  refine ⟨fun bid =>
    filter_booking_length db.payments (reachable_inv db h).1 bid, ?_⟩
  intro cfg env user bid booking ep hfb hfp
  by_cases hrole : user.role ≠ UserRole.client
  · simp [initiate_booking_payment, if_pos hrole]
  · simp only [initiate_booking_payment, if_neg hrole, hfb]
    by_cases hcs : booking.status ≠ BookingStatus.confirmed
    · rw [if_pos hcs]
    · rw [if_neg hcs]
      simp only [hfp]
      split_ifs with hs1 hs2 hs3
      · rfl
      · rfl
      · simp only [pushPhase]
        rw [updatePayment_length, updatePayment_length]
      · rfl

/-- C2 witness: the reachable store holding the freshly initiated payment
has at most one payment row for booking 1. -/
theorem at_most_one_payment_per_booking_witness :
    (db1C6.payments.filter (fun p => p.booking_id == 1)).length ≤ 1 :=
  (at_most_one_payment_per_booking db1C6
    ⟨dbC6, rfl, Relation.ReflTransGen.single
      (Step.initiatePayment cfgC6 envC6 userC6 dbC6 1)⟩).1 1

/-! ## C7: transaction id versus SUCCESSFUL status -/

/-- A success callback for M1/C1 carrying no metadata at all. -/
def cbNoMeta : StkCallback := ⟨some ("M1"), some ("C1"), some ("0"), []⟩

/-- Store reached by initiating the payment and applying the success
callback that carries no receipt item. -/
def db2Bad : DB := (process_mpesa_callback db1C6 cbNoMeta).2

/-- C7 counterexample: a reachable store holds a payment whose status is
SUCCESSFUL while its transaction id is unset (success callback without an
MpesaReceiptNumber item), refuting the if-and-only-if. -/
theorem txn_iff_successful_cex :
    Reachable db2Bad ∧
    (findPaymentByBooking db2Bad 1).map Payment.status =
      some PaymentStatus.successful ∧
    (findPaymentByBooking db2Bad 1).map Payment.mpesa_transaction_id =
      some none := by
  refine ⟨⟨dbC6, rfl, ?_⟩, by decide, by decide⟩
  exact Relation.ReflTransGen.head
    (Step.initiatePayment cfgC6 envC6 userC6 dbC6 1)
    (Relation.ReflTransGen.single (Step.callback db1C6 cbNoMeta))

/-- C7 amended: the direction that every operation does preserve: over
every reachable store, a PENDING payment has no transaction id (so a set
transaction id implies a terminal SUCCESSFUL or FAILED status).  The full
biconditional fails: see the counterexample. -/
theorem pending_payment_has_no_transaction_id (db : DB) (h : Reachable db) :
    ∀ p ∈ db.payments, p.status = PaymentStatus.pending →
      p.mpesa_transaction_id = none :=
  (reachable_inv db h).2

/-- The payment row as it sits in db1C6 after the accepted push. -/
def payAfterPush : Payment :=
  ⟨0, 1, 150, "KES", none, some ("M1"), some ("C1"), PaymentStatus.pending,
    some ⟨150, partyC6, "BOOK1"⟩, none⟩

/-- C7 amended witness: the concrete PENDING row after the push has no
transaction id. -/
theorem pending_payment_has_no_transaction_id_witness :
    payAfterPush.mpesa_transaction_id = none :=
  pending_payment_has_no_transaction_id db1C6
    ⟨dbC6, rfl, Relation.ReflTransGen.single
      (Step.initiatePayment cfgC6 envC6 userC6 dbC6 1)⟩
    payAfterPush (by decide) rfl

end Fundis
